import Mathlib

/-!
Verification of the learning-app spaced-repetition core.

Shallow embedding of `src/backend/app/services/spaced_repetition.py`,
`src/backend/app/services/math_problems.py` and the untried-template
selection / answer-submission flows of `src/backend/app/routers/learn.py`
and `src/backend/app/routers/math.py`.

Python floats are modelled by rationals; timestamps are integers counted
in minutes, so a day is 1440 and the 10-minute retry delay is 10.
-/

namespace LearningApp

/-- Python's built-in `round` to an integer: round half to even. -/
def pyRound (x : ℚ) : ℤ :=
  let f := ⌊x⌋
  let frac := x - (f : ℚ)
  if frac < 1/2 then f
  else if 1/2 < frac then f + 1
  else if f % 2 = 0 then f else f + 1

/-- Python's `round(x, 2)`: round to two decimal places, half to even. -/
def round2 (x : ℚ) : ℚ := ((pyRound (100 * x) : ℤ) : ℚ) / 100

/-- Minutes in a day, for `timedelta(days=...)` on minute-valued timestamps. -/
def minutesPerDay : ℤ := 1440

/-- Result of applying the SR algorithm after a review
(`ReviewResult` in spaced_repetition.py). -/
structure ReviewResult where
  ease_factor : ℚ
  interval_days : ℤ
  next_review_at : ℤ
  deriving Repr, DecidableEq

/-- Embedding of `calculate_next_review` from spaced_repetition.py.
`now` stands for `datetime.now()`, in minutes. -/
def calculate_next_review (score : ℤ) (current_ease : ℚ)
    (current_interval : ℤ) (review_count : ℤ) (now : ℤ) : ReviewResult :=
  let score := max 1 (min 5 score)
  let q : ℚ := (score : ℚ)
  let new_ease := current_ease + (1/10 - (5 - q) * (8/100 + (5 - q) * (2/100)))
  let new_ease := max (13/10) new_ease
  let new_interval : ℤ :=
    if score < 3 then 0
    else if review_count = 0 ∨ current_interval = 0 then 1
    else if current_interval = 1 then 3
    else pyRound ((current_interval : ℚ) * new_ease)
  let new_interval := min 365 new_interval
  let next_review : ℤ :=
    if new_interval = 0 then now + 10 else now + minutesPerDay * new_interval
  { ease_factor := round2 new_ease
    interval_days := new_interval
    next_review_at := next_review }

/-- Embedding of `calculate_math_review` from spaced_repetition.py. -/
def calculate_math_review (is_correct : Bool) (current_ease : ℚ)
    (current_interval : ℤ) (total_attempts : ℤ) (now : ℤ) : ReviewResult :=
  let score : ℤ := if is_correct then 4 else 2
  calculate_next_review score current_ease current_interval total_attempts now

/-! Evaluation and bound lemmas for `pyRound` and `round2`. -/

theorem pyRound_eq_of_lt_half (x : ℚ) (n : ℤ) (h1 : (n : ℚ) ≤ x)
    (h2 : x < (n : ℚ) + 1/2) : pyRound x = n := by
  have hf : ⌊x⌋ = n := by
    rw [Int.floor_eq_iff]
    refine ⟨h1, by linarith⟩
  simp only [pyRound, hf]
  rw [if_pos]
  linarith

theorem pyRound_eq_of_half_lt (x : ℚ) (n : ℤ) (h1 : (n : ℚ) + 1/2 < x)
    (h2 : x < (n : ℚ) + 1) : pyRound x = n + 1 := by
  have hf : ⌊x⌋ = n := by
    rw [Int.floor_eq_iff]
    refine ⟨by linarith, by linarith⟩
  simp only [pyRound, hf]
  rw [if_neg (by linarith), if_pos (by linarith)]

theorem sub_half_le_pyRound (x : ℚ) : x - 1/2 ≤ (pyRound x : ℚ) := by
  have hle : (⌊x⌋ : ℚ) ≤ x := Int.floor_le x
  have hlt : x < (⌊x⌋ : ℚ) + 1 := Int.lt_floor_add_one x
  simp only [pyRound]
  split_ifs with h1 h2 h3
  · linarith
  · push_cast; linarith
  · linarith
  · push_cast; linarith

theorem pyRound_le_add_half (x : ℚ) : (pyRound x : ℚ) ≤ x + 1/2 := by
  have hle : (⌊x⌋ : ℚ) ≤ x := Int.floor_le x
  have hlt : x < (⌊x⌋ : ℚ) + 1 := Int.lt_floor_add_one x
  simp only [pyRound]
  split_ifs with h1 h2 h3
  · linarith
  · push_cast; linarith
  · linarith
  · push_cast; linarith

theorem pyRound_intCast (z : ℤ) : pyRound (z : ℚ) = z := by
  refine pyRound_eq_of_lt_half _ z le_rfl (by linarith)

/-- `round(x, 2)` is the identity on rationals with denominator dividing 100. -/
theorem round2_int_div_100 (z : ℤ) : round2 ((z : ℚ) / 100) = (z : ℚ) / 100 := by
  have h : (100 : ℚ) * ((z : ℚ) / 100) = (z : ℚ) := by ring
  rw [round2, h, pyRound_intCast]

theorem round2_ge_13 (x : ℚ) (h : 13/10 ≤ x) : 13/10 ≤ round2 x := by
  have hb := sub_half_le_pyRound (100 * x)
  have h129 : (129 : ℚ) < (pyRound (100 * x) : ℚ) := by linarith
  have h130 : (130 : ℤ) ≤ pyRound (100 * x) := by exact_mod_cast h129
  have h130' : (130 : ℚ) ≤ (pyRound (100 * x) : ℚ) := by exact_mod_cast h130
  rw [round2]
  linarith

/-- Sanity evaluation: a failing review of a mature card resets the interval
and shows the card again in 10 minutes, with the ease dropped by 0.54. -/
theorem calculate_next_review_example :
    calculate_next_review 1 (5/2) 7 3 0
      = { ease_factor := 196/100, interval_days := 0, next_review_at := 10 } := by
  have hclamp : max (1:ℤ) (min 5 1) = 1 := by simp
  have h196 := round2_int_div_100 196
  norm_num at h196
  simp only [calculate_next_review, hclamp]
  norm_num [h196]

/-- If the interval multiplier branch is taken (current interval not 0 or 1) and the
ease is at least 1.3, the capped rounded product is never 0. -/
theorem pyRound_mul_ne_zero (i : ℤ) (e : ℚ) (hi0 : i ≠ 0) (hi1 : i ≠ 1)
    (he : 13/10 ≤ e) : min 365 (pyRound ((i : ℚ) * e)) ≠ 0 := by
  rcases lt_or_le i 0 with hneg | hpos
  · have hneg1 : i ≤ -1 := by omega
    have hi : (i : ℚ) ≤ -1 := by exact_mod_cast hneg1
    have hx : (i : ℚ) * e ≤ -(13/10) := by nlinarith
    have hub := pyRound_le_add_half ((i : ℚ) * e)
    have hcast : (pyRound ((i : ℚ) * e) : ℚ) < 0 := by linarith
    have hlt : pyRound ((i : ℚ) * e) < 0 := by exact_mod_cast hcast
    omega
  · have h2 : (2 : ℤ) ≤ i := by omega
    have hi : (2 : ℚ) ≤ (i : ℚ) := by exact_mod_cast h2
    have hx : (13 : ℚ)/5 ≤ (i : ℚ) * e := by nlinarith
    have hlb := sub_half_le_pyRound ((i : ℚ) * e)
    have hcast : (0 : ℚ) < (pyRound ((i : ℚ) * e) : ℚ) := by linarith
    have hgt : 0 < pyRound ((i : ℚ) * e) := by exact_mod_cast hcast
    omega

/-- The returned ease factor is at least 1.3, whatever the inputs. -/
theorem ease_factor_ge_floor (score : ℤ) (ease : ℚ) (interval count now : ℤ) :
    13/10 ≤ (calculate_next_review score ease interval count now).ease_factor := by
  simp only [calculate_next_review]
  exact round2_ge_13 _ (le_max_left _ _)

/-- C2: for every score below 3 (before clamping), the result has
`interval_days = 0` and `next_review_at` exactly 10 minutes after now,
regardless of prior ease, interval and review count. -/
theorem C2_low_score_resets (score : ℤ) (ease : ℚ) (interval count now : ℤ)
    (h : score < 3) :
    (calculate_next_review score ease interval count now).interval_days = 0 ∧
    (calculate_next_review score ease interval count now).next_review_at = now + 10 := by
  have hs : max 1 (min 5 score) < 3 := by omega
  simp only [calculate_next_review, if_pos hs]
  norm_num

/-- Witness for C2 at score 1. -/
theorem C2_witness :
    (calculate_next_review 1 (5/2) 7 3 0).interval_days = 0 ∧
    (calculate_next_review 1 (5/2) 7 3 0).next_review_at = 0 + 10 :=
  C2_low_score_resets 1 (5/2) 7 3 0 (by norm_num)

/-- C3: for every score at least 3, the new interval is 1 on the first success
(`count = 0` or `interval = 0`), 3 when the current interval is 1, and
`round(interval * new_ease)` otherwise, capped at 365 in every branch; and
`next_review_at` is `now` plus the new interval in days. -/
theorem C3_success_intervals (score : ℤ) (ease : ℚ) (interval count now : ℤ)
    (h : 3 ≤ score) :
    (calculate_next_review score ease interval count now).interval_days
      = min 365
          (if count = 0 ∨ interval = 0 then 1
           else if interval = 1 then 3
           else pyRound ((interval : ℚ) *
             (max (13/10) (ease + (1/10 - (5 - ((max 1 (min 5 score) : ℤ) : ℚ))
               * (8/100 + (5 - ((max 1 (min 5 score) : ℤ) : ℚ)) * (2/100))))))) ∧
    (calculate_next_review score ease interval count now).next_review_at
      = now + minutesPerDay *
          (calculate_next_review score ease interval count now).interval_days := by
  have hs : ¬ (max 1 (min 5 score) < 3) := by omega
  have hnz : (calculate_next_review score ease interval count now).interval_days ≠ 0 := by
    simp only [calculate_next_review, if_neg hs]
    split_ifs with h1 h2
    · norm_num
    · norm_num
    · exact pyRound_mul_ne_zero interval _ (fun h0 => h1 (Or.inr h0)) h2 (le_max_left _ _)
  refine ⟨?_, ?_⟩
  · simp only [calculate_next_review, if_neg hs]
  · simp only [calculate_next_review, if_neg hs] at hnz ⊢
    rw [if_neg hnz]

/-- Witness for C3 at score 5, ease 2.5, interval 10, count 5. -/
theorem C3_witness :
    (calculate_next_review 5 (5/2) 10 5 0).interval_days
      = min 365
          (if (5:ℤ) = 0 ∨ (10:ℤ) = 0 then 1
           else if (10:ℤ) = 1 then 3
           else pyRound (((10:ℤ) : ℚ) *
             (max (13/10) (5/2 + (1/10 - (5 - ((max 1 (min 5 5) : ℤ) : ℚ))
               * (8/100 + (5 - ((max 1 (min 5 5) : ℤ) : ℚ)) * (2/100))))))) ∧
    (calculate_next_review 5 (5/2) 10 5 0).next_review_at
      = 0 + minutesPerDay * (calculate_next_review 5 (5/2) 10 5 0).interval_days :=
  C3_success_intervals 5 (5/2) 10 5 0 (by norm_num)

/-- C4: for every valid ease input (at least 1.3), the returned ease factor is
at least 1.3, and it stays at least 1.3 after any sequence of further reviews
(in particular arbitrarily many consecutive low scores). -/
theorem C4_ease_never_below_floor (score : ℤ) (ease : ℚ) (interval count now : ℤ)
    (scores : List ℤ) (h : 13/10 ≤ ease) :
    13/10 ≤ (calculate_next_review score ease interval count now).ease_factor ∧
    13/10 ≤ scores.foldl
        (fun e s => (calculate_next_review s e interval count now).ease_factor) ease := by
  refine ⟨ease_factor_ge_floor score ease interval count now, ?_⟩
  induction scores generalizing ease with
  | nil => exact h
  | cons s t ih => exact ih _ (ease_factor_ge_floor s ease interval count now)

/-- Witness for C4 with ease 1.3 and two consecutive failing scores. -/
theorem C4_witness :
    13/10 ≤ (calculate_next_review 1 (13/10) 0 0 0).ease_factor ∧
    13/10 ≤ ([1, 1] : List ℤ).foldl
        (fun e s => (calculate_next_review s e 0 0 0).ease_factor) (13/10) :=
  C4_ease_never_below_floor 1 (13/10) 0 0 0 [1, 1] (by norm_num)

/-- C8: the binary math variant delegates to the graded update law with
score 4 when correct and score 2 when incorrect. -/
theorem C8_math_review_delegates (b : Bool) (ease : ℚ) (interval attempts now : ℤ) :
    calculate_math_review b ease interval attempts now
      = calculate_next_review (if b then 4 else 2) ease interval attempts now := rfl

/-- C1 fails as stated: with score 5 and current ease 2.501, the SM-2 formula
gives 2.601, but the code rounds the returned ease factor to two decimal
places and returns 2.6. -/
theorem C1_counterexample :
    ¬ ((calculate_next_review 5 (2501/1000) 0 0 0).ease_factor
        = max (13/10) (2501/1000 + (1/10 - ((5:ℚ) - 5) * (8/100 + ((5:ℚ) - 5) * (2/100))))) := by
  have hclamp : max (1:ℤ) (min 5 5) = 5 := by norm_num
  have h260 : pyRound (2601/10) = 260 :=
    pyRound_eq_of_lt_half _ 260 (by norm_num) (by norm_num)
  simp only [calculate_next_review, hclamp, round2]
  norm_num
  rw [h260]
  norm_num

/-- C1 (amended): the returned ease factor is the SM-2 formula value
`max(1.3, ease + (0.1 - (5-s)(0.08 + (5-s)0.02)))` for the clamped score `s`,
rounded to two decimal places; when the current ease is an integer multiple of
0.01 the rounding is the identity, so the claimed equality holds exactly; and
out-of-range scores are silently clamped: the result equals the result at
`min(5, max(1, score))`. -/
theorem C1_ease_update (score : ℤ) (ease : ℚ) (interval count now : ℤ) :
    (calculate_next_review score ease interval count now).ease_factor
      = round2 (max (13/10) (ease + (1/10 - (5 - ((max 1 (min 5 score) : ℤ) : ℚ))
          * (8/100 + (5 - ((max 1 (min 5 score) : ℤ) : ℚ)) * (2/100))))) ∧
    ((∃ z : ℤ, ease = (z : ℚ) / 100) →
      (calculate_next_review score ease interval count now).ease_factor
        = max (13/10) (ease + (1/10 - (5 - ((max 1 (min 5 score) : ℤ) : ℚ))
            * (8/100 + (5 - ((max 1 (min 5 score) : ℤ) : ℚ)) * (2/100))))) ∧
    calculate_next_review score ease interval count now
      = calculate_next_review (min 5 (max 1 score)) ease interval count now := by
  have part1 : (calculate_next_review score ease interval count now).ease_factor
      = round2 (max (13/10) (ease + (1/10 - (5 - ((max 1 (min 5 score) : ℤ) : ℚ))
          * (8/100 + (5 - ((max 1 (min 5 score) : ℤ) : ℚ)) * (2/100))))) := by
    simp only [calculate_next_review]
  refine ⟨part1, ?_, ?_⟩
  · rintro ⟨z, rfl⟩
    have hX : max (13/10 : ℚ) ((z : ℚ)/100 + (1/10 - (5 - ((max 1 (min 5 score) : ℤ) : ℚ))
          * (8/100 + (5 - ((max 1 (min 5 score) : ℤ) : ℚ)) * (2/100))))
        = ((max 130 (z + (10 - 8 * (5 - max 1 (min 5 score))
            - 2 * (5 - max 1 (min 5 score))^2)) : ℤ) : ℚ) / 100 := by
      conv_rhs => rw [Int.cast_max]
      rw [← max_div_div_right (by norm_num : (0:ℚ) ≤ 100)]
      congr 1
      · norm_num
      · push_cast
        ring
    rw [part1, hX, round2_int_div_100, ← hX]
  · have hc : max 1 (min 5 (min 5 (max 1 score))) = max 1 (min 5 score) := by omega
    simp only [calculate_next_review, hc]

/-- Witness for C1 (amended) at score 5 and ease 2.5 = 250/100. -/
theorem C1_witness :
    (calculate_next_review 5 (5/2) 0 0 0).ease_factor
      = max (13/10) (5/2 + (1/10 - (5 - ((max 1 (min 5 5) : ℤ) : ℚ))
          * (8/100 + (5 - ((max 1 (min 5 5) : ℤ) : ℚ)) * (2/100)))) :=
  (C1_ease_update 5 (5/2) 0 0 0).2.1 ⟨250, by norm_num⟩

/-! Grading engine (`grade_math_answer` in math_problems.py). -/

/-- Result dict of `grade_math_answer`. -/
structure GradeResult where
  is_correct : Bool
  user_answer : ℚ
  correct_answer : ℚ
  difference : ℚ
  deriving Repr, DecidableEq

/-- Embedding of `grade_math_answer` from math_problems.py. -/
def grade_math_answer (user_answer correct_answer tolerance : ℚ) : GradeResult :=
  let is_correct : Bool :=
    if |correct_answer| < 1/10000 then
      decide (|user_answer - correct_answer| < tolerance)
    else
      let relative_error := |user_answer - correct_answer| / |correct_answer|
      decide (relative_error < tolerance ∨ |user_answer - correct_answer| < tolerance)
  { is_correct := is_correct
    user_answer := user_answer
    correct_answer := correct_answer
    difference := |user_answer - correct_answer| }

/-- C6: grading is by absolute difference when the correct answer is within
1e-4 of zero, and otherwise by relative error OR absolute difference (either
sufficient); the boundary case `grade(user 0.00006, correct 0.00005, tol 0.01)`
takes the absolute branch and is correct. -/
theorem C6_grading_rule (u c tol : ℚ) :
    ((grade_math_answer u c tol).is_correct = true ↔
      (if |c| < 1/10000 then |u - c| < tol
       else (|u - c| / |c| < tol ∨ |u - c| < tol))) ∧
    (|(5/100000 : ℚ)| < 1/10000 ∧
      (grade_math_answer (6/100000) (5/100000) (1/100)).is_correct = true) := by
  refine ⟨?_, by rw [abs_of_nonneg (by norm_num)]; norm_num, ?_⟩
  · simp only [grade_math_answer]
    split_ifs with h <;> simp
  · simp only [grade_math_answer]
    rw [if_pos (by rw [abs_of_nonneg (by norm_num)]; norm_num)]
    simp only [decide_eq_true_eq]
    rw [show (6:ℚ)/100000 - 5/100000 = 1/100000 by norm_num,
      abs_of_nonneg (by norm_num : (0:ℚ) ≤ 1/100000)]
    norm_num

/-- C7: grading a correct answer against itself passes for every positive
tolerance. -/
theorem C7_self_grade (x tol : ℚ) (h : 0 < tol) :
    (grade_math_answer x x tol).is_correct = true := by
  simp only [grade_math_answer, sub_self, abs_zero]
  split_ifs with hc <;> simp [h]

/-- Witness for C7 at answer 3.14 and tolerance 0.01. -/
theorem C7_witness : (grade_math_answer (314/100) (314/100) (1/100)).is_correct = true :=
  C7_self_grade (314/100) (1/100) (by norm_num)

/-! Answer submission (routers/learn.py). The external feedback generator
(`get_feedback` / `get_math_feedback` in services/llm.py) performs a network
call with no try/except anywhere on the path, so its outcome is modelled as
an `Except`: `Except.error` is a raised exception propagating out of the
handler, `Except.ok` carries the parsed feedback. The returned `Except.ok`
payload models what the handler persists (the scheduling-state write and the
stored review); `Except.error` means the handler aborted with nothing
persisted. -/

/-- Parsed LLM feedback (shape of `_parse_feedback` in services/llm.py):
a possibly-missing score plus the raw text. -/
structure Feedback where
  score : Option ℤ
  raw : String

/-- Python `x or d` on an optional integer: `None` and `0` are falsy. -/
def pyOrZ (x : Option ℤ) (d : ℤ) : ℤ :=
  match x with
  | none => d
  | some v => if v = 0 then d else v

/-- Python `x or d` on an optional rational: `None` and `0.0` are falsy. -/
def pyOrQ (x : Option ℚ) (d : ℚ) : ℚ :=
  match x with
  | none => d
  | some v => if v = 0 then d else v

/-- Scheduling fields of a `questions` row as read by `_submit_regular_answer`
(each may be NULL). -/
structure QuestionRow where
  ease_factor : Option ℚ
  interval_days : Option ℤ
  review_count : Option ℤ

/-- Embedding of `_submit_regular_answer` from routers/learn.py, abstracted
over the outcome of the external `get_feedback` call, which the handler makes
before computing and persisting the new schedule. -/
def submit_regular_answer (feedback_result : Except Unit Feedback)
    (q : QuestionRow) (now : ℤ) : Except Unit (ReviewResult × Feedback) :=
  match feedback_result with
  | .error e => .error e
  | .ok feedback =>
    let score := pyOrZ feedback.score 3
    let sr := calculate_next_review score (pyOrQ q.ease_factor (5/2))
      (pyOrZ q.interval_days 0) (pyOrZ q.review_count 0) now
    .ok (sr, feedback)

/-- Scheduling fields of a `math_template_progress` row. -/
structure ProgressRow where
  ease_factor : ℚ
  interval_days : ℤ
  total_attempts : ℤ

/-- Embedding of `_submit_math_answer` from routers/learn.py, abstracted over
the outcome of the external `get_math_feedback` call, which the handler makes
after grading and before the progress write. -/
def submit_math_answer (feedback_result : Except Unit String)
    (user_answer correct_answer tolerance : ℚ)
    (progress : Option ProgressRow) (now : ℤ) :
    Except Unit (ReviewResult × GradeResult × String) :=
  let grade := grade_math_answer user_answer correct_answer tolerance
  match feedback_result with
  | .error e => .error e
  | .ok feedback =>
    let sr :=
      match progress with
      | some p => calculate_math_review grade.is_correct p.ease_factor
          p.interval_days p.total_attempts now
      | none => calculate_math_review grade.is_correct (5/2) 0 0 now
    .ok (sr, grade, feedback)

/-- C5 fails as stated: when the feedback call raises, both handlers abort
with the exception before any scheduling state is written — here at a concrete
question row (and math progress absent) the result carries no scheduling
update at all. -/
theorem C5_counterexample :
    submit_regular_answer (Except.error ()) ⟨some (5/2), some 0, some 0⟩ 0
      = Except.error () ∧
    submit_math_answer (Except.error ()) 1 1 (1/100) none 0 = Except.error () :=
  ⟨rfl, rfl⟩

/-- C5 (amended): a failure of the external feedback generator is NOT
recovered: it propagates as an exception out of `_submit_regular_answer` and
`_submit_math_answer`, aborting the request before the scheduling-state
update (ease_factor, interval_days, next_review_at, counters) is persisted,
for every question row and progress state. -/
theorem C5_feedback_failure_aborts (q : QuestionRow) (now : ℤ)
    (u c tol : ℚ) (p : Option ProgressRow) :
    submit_regular_answer (Except.error ()) q now = Except.error () ∧
    submit_math_answer (Except.error ()) u c tol p now = Except.error () :=
  ⟨rfl, rfl⟩

/-! Untried-template selection. learn.py `next_question` picks
`random.choice(untried)`; math.py `next_math_question` picks
`get_template(untried[0])`. `random.choice` is modelled with an injected
seed `r`: a uniformly random seed selects index `r % len`, which is a uniform
position in the list. -/

/-- `random.choice(l)` with injected seed `r`. -/
def random_choice (l : List String) (r : ℕ) : Option String :=
  l[r % l.length]?

/-- Untried-template selection in learn.py `next_question`. -/
def learn_untried_choice (untried : List String) (r : ℕ) : Option String :=
  random_choice untried r

/-- Untried-template selection in math.py `next_math_question`:
`untried[0]`, ignoring any randomness. -/
def math_untried_choice (untried : List String) (_r : ℕ) : Option String :=
  untried.head?

/-- A selection rule is uniform over the list when, over one full period of
seeds, each entry is selected exactly as often as it occurs. -/
def uniform_over (choose : List String → ℕ → Option String) : Prop :=
  ∀ (l : List String) (x : String),
    ((List.range l.length).filter fun r => decide (choose l r = some x)).length
      = l.count x

theorem length_filter_range_getElem (l : List String) (x : String) :
    ((List.range l.length).filter fun r => decide (l[r]? = some x)).length
      = l.count x := by
  induction l with
  | nil => simp
  | cons a t ih =>
    rw [List.length_cons, List.range_succ_eq_map, List.filter_cons]
    by_cases hax : a = x
    · subst hax
      simp only [List.getElem?_cons_zero, Option.some.injEq, decide_eq_true_eq,
        if_pos rfl, List.length_cons, List.filter_map, List.length_map,
        Function.comp_def, List.getElem?_cons_succ, List.count_cons]
      simp [ih]
    · simp only [List.getElem?_cons_zero, Option.some.injEq, decide_eq_true_eq,
        if_neg hax, List.filter_map, List.length_map,
        Function.comp_def, List.getElem?_cons_succ, List.count_cons]
      simp [ih, hax]

/-- C9 fails as stated for the math router: with two untried templates, the
second is never selected — `next_math_question` always takes the first
untried template, so the untried choice there is not uniform. -/
theorem C9_counterexample :
    ¬ (((List.range (["poisson_pmf", "poisson_cdf"] : List String).length).filter
          fun r => decide (math_untried_choice ["poisson_pmf", "poisson_cdf"] r
            = some "poisson_cdf")).length
        = (["poisson_pmf", "poisson_cdf"] : List String).count "poisson_cdf") := by
  simp [math_untried_choice]

/-- C9 (amended): when the due query returns nothing and untried templates
exist, learn.py's `next_question` picks one uniformly at random from the
untried set (`random.choice`), while math.py's `next_math_question`
deterministically picks the first untried template. -/
theorem C9_untried_selection :
    uniform_over learn_untried_choice ∧
    ∀ (l : List String) (r : ℕ), math_untried_choice l r = l.head? := by
  constructor
  · intro l x
    have hcongr : ∀ r ∈ List.range l.length,
        (decide (learn_untried_choice l r = some x)) = (decide (l[r]? = some x)) := by
      intro r hr
      rw [List.mem_range] at hr
      simp [learn_untried_choice, random_choice, Nat.mod_eq_of_lt hr]
    rw [List.filter_congr hcongr]
    exact length_filter_range_getElem l x
  · intro l r
    rfl

/-! Template parameter generation (`generate_params` in math_problems.py).
Randomness is injected: one integer seed and one real draw per parameter
name, so the sampling is a pure function of the source. -/

/-- Python `int()` on a rational: truncation toward zero. -/
def pyInt (x : ℚ) : ℤ := if x < 0 then -⌊-x⌋ else ⌊x⌋

/-- Python `round(x, d)` for an arbitrary decimal count `d`
(negative as in `round(x, -2)`). -/
def roundTo (d : ℤ) (x : ℚ) : ℚ := ((pyRound (x * 10 ^ d) : ℤ) : ℚ) / 10 ^ d

/-- `random.uniform(lo, hi)` with an injected draw `r` in `[0, 1]`. -/
def uniform_draw (lo hi r : ℚ) : ℚ := lo + (hi - lo) * r

/-- `random.randint(a, b)`: uniform integer in `[a, b]` from an injected seed. -/
def randint_draw (a b : ℤ) (seed : ℕ) : ℤ :=
  if a ≤ b then a + (seed : ℤ) % (b - a + 1) else a

/-- Injected source of randomness for parameter generation. -/
structure RandSource where
  int_seed : String → ℕ
  real_draw : String → ℚ

/-- Per-parameter sampling rule of `generate_params`: integer draw for count
names, and a name-dependent decimal rounding of a uniform draw otherwise. -/
def gen_param_value (g : RandSource) (name : String) (lo hi : ℚ) : ℚ :=
  if name = "n" ∨ name = "k" ∨ name = "compounds_per_year" then
    ((randint_draw (pyInt lo) (pyInt hi) (g.int_seed name) : ℤ) : ℚ)
  else if name = "p" then roundTo 2 (uniform_draw lo hi (g.real_draw name))
  else if name = "fv" ∨ name = "pv" ∨ name = "principal" then
    roundTo (-2) (uniform_draw lo hi (g.real_draw name))
  else if name = "rate" then roundTo 2 (uniform_draw lo hi (g.real_draw name))
  else roundTo 1 (uniform_draw lo hi (g.real_draw name))

/-- Lookup by parameter name in the generated assignment (a Python dict). -/
def findVal (key : String) : List (String × ℚ) → Option ℚ
  | [] => none
  | (k, v) :: t => if k = key then some v else findVal key t

/-- Embedding of `generate_params` from math_problems.py over the template's
declared `param_ranges` as a (name, min, max) list: sample every parameter,
then clamp `k` to `min(k, n)` when both are present. -/
def generate_params (g : RandSource) (ranges : List (String × ℚ × ℚ)) :
    List (String × ℚ) :=
  let params := ranges.map fun pr => (pr.1, gen_param_value g pr.1 pr.2.1 pr.2.2)
  match findVal "k" params, findVal "n" params with
  | some kv, some nv =>
      params.map fun p => if p.1 = "k" then (p.1, min kv nv) else p
  | _, _ => params

theorem findVal_isSome_of_mem (key : String) (l : List (String × ℚ))
    (h : key ∈ l.map Prod.fst) : (findVal key l).isSome := by
  induction l with
  | nil => simp at h
  | cons p t ih =>
    obtain ⟨k, v⟩ := p
    simp only [List.map_cons, List.mem_cons] at h
    by_cases hk : k = key
    · simp [findVal, hk]
    · have hm : key ∈ t.map Prod.fst := by
        rcases h with h | h
        · exact absurd h.symm hk
        · exact h
      simp [findVal, hk, ih hm]

theorem findVal_clamp_k (c : ℚ) (l : List (String × ℚ)) :
    findVal "k" (l.map fun p => if p.1 = "k" then (p.1, c) else p)
      = (findVal "k" l).map fun _ => c := by
  induction l with
  | nil => rfl
  | cons p t ih =>
    obtain ⟨k, v⟩ := p
    by_cases hk : k = "k"
    · subst hk
      simp [findVal, ih]
    · have h1 : (if (k, v).1 = "k" then ((k, v).1, c) else (k, v)) = (k, v) := by
        simp [hk]
      rw [List.map_cons, h1]
      simp [findVal, hk, ih]

theorem findVal_clamp_other (key : String) (hkey : key ≠ "k") (c : ℚ)
    (l : List (String × ℚ)) :
    findVal key (l.map fun p => if p.1 = "k" then (p.1, c) else p)
      = findVal key l := by
  induction l with
  | nil => rfl
  | cons p t ih =>
    obtain ⟨k, v⟩ := p
    by_cases hk : k = "k"
    · subst hk
      simp [findVal, Ne.symm hkey, ih]
    · have h1 : (if (k, v).1 = "k" then ((k, v).1, c) else (k, v)) = (k, v) := by
        simp [hk]
      rw [List.map_cons, h1]
      simp [findVal, hk, ih]

/-- C10: whenever the parameter ranges contain both a trial count `n` and a
success count `k`, the generated assignment has both values and the success
count never exceeds the trial count. -/
theorem C10_k_le_n (g : RandSource) (ranges : List (String × ℚ × ℚ))
    (hk : "k" ∈ ranges.map Prod.fst) (hn : "n" ∈ ranges.map Prod.fst) :
    ∃ kv nv, findVal "k" (generate_params g ranges) = some kv ∧
      findVal "n" (generate_params g ranges) = some nv ∧ kv ≤ nv := by
  set params := ranges.map fun pr => (pr.1, gen_param_value g pr.1 pr.2.1 pr.2.2)
    with hparams
  have hkeys : params.map Prod.fst = ranges.map Prod.fst := by
    rw [hparams, List.map_map]
    rfl
  have hks := findVal_isSome_of_mem "k" params (by rw [hkeys]; exact hk)
  have hns := findVal_isSome_of_mem "n" params (by rw [hkeys]; exact hn)
  obtain ⟨kv0, hkv0⟩ := Option.isSome_iff_exists.mp hks
  obtain ⟨nv0, hnv0⟩ := Option.isSome_iff_exists.mp hns
  have hgen : generate_params g ranges
      = params.map fun p => if p.1 = "k" then (p.1, min kv0 nv0) else p := by
    simp only [generate_params, ← hparams, hkv0, hnv0]
  refine ⟨min kv0 nv0, nv0, ?_, ?_, min_le_right _ _⟩
  · rw [hgen, findVal_clamp_k, hkv0]
    rfl
  · rw [hgen, findVal_clamp_other "n" (by simp) (min kv0 nv0) params, hnv0]

/-- Witness for C10 on the binomial template's ranges
(n in [5,20], p in [0.2,0.8], k in [1,15]) with a zero randomness source. -/
theorem C10_witness :
    ∃ kv nv,
      findVal "k" (generate_params ⟨fun _ => 0, fun _ => 0⟩
        [("n", 5, 20), ("p", 2/10, 8/10), ("k", 1, 15)]) = some kv ∧
      findVal "n" (generate_params ⟨fun _ => 0, fun _ => 0⟩
        [("n", 5, 20), ("p", 2/10, 8/10), ("k", 1, 15)]) = some nv ∧ kv ≤ nv :=
  C10_k_le_n ⟨fun _ => 0, fun _ => 0⟩ [("n", 5, 20), ("p", 2/10, 8/10), ("k", 1, 15)]
    (by simp) (by simp)

end LearningApp
